import Mathlib

/-!
Shallow embedding of the execution core of the ir441 interpreter
(src/src/ir441/exec.rs).  Machine integers (`u64`) are modelled as `Nat`
with explicit wrap-around `% 2^64` where the Rust code performs
release-mode wrapping arithmetic; Rust panics (explicit `panic!`,
`assert!`, out-of-bounds indexing, division by zero) are modelled by the
`Failure.panicked` outcome; recursion whose depth the Rust code leaves
unbounded (the interpreter loop and the GC's `trace`) takes an explicit
fuel argument, with exhaustion reported as `Failure.noFuel`.

The AST node types (`VirtualVal`, `IRExpr`, `IRStatement`, `ControlXfer`,
`BasicBlock`, `GlobalStatic`, `IRProgram`) live in the repository's
`nodes.rs`, which is not part of the provided sources; they are modelled
from the spec (sections 3 and 6) and from their usage in `exec.rs`.
`HashMap`/`BTreeMap` are modelled as association lists with
replace-on-insert semantics.
-/

namespace IR441

/-- Wrapping 64-bit addition (Rust release-mode `u64` `+`). -/
def wadd (a b : Nat) : Nat := (a + b) % 2 ^ 64

/-- Wrapping 64-bit subtraction (Rust release-mode `u64` `-`);
faithful for operands below `2^64`. -/
def wsub (a b : Nat) : Nat := (a + 2 ^ 64 - b % 2 ^ 64) % 2 ^ 64

/-- Wrapping 64-bit multiplication (Rust release-mode `u64` `*`). -/
def wmul (a b : Nat) : Nat := (a * b) % 2 ^ 64

/-- `u64` left shift; Rust release mode masks the shift amount. -/
def wshl (a b : Nat) : Nat := (Nat.shiftLeft a (b % 64)) % 2 ^ 64

/-- `u64` logical right shift; Rust release mode masks the shift amount. -/
def wshr (a b : Nat) : Nat := Nat.shiftRight a (b % 64)

/-- Modelled from the spec: the tagged word type `VirtualVal` from
`nodes.rs` (spec section 3: `Data`, `CodePtr`, `GCTombstone`). -/
inductive VirtualVal where
  | Data (val : Nat)
  | CodePtr (val : String)
  | GCTombstone
deriving DecidableEq, Repr

/-- The `RuntimeError` enumeration of exec.rs (payloads that only carry
diagnostic references to AST nodes are dropped). -/
inductive RuntimeError where
  | AccessingCodeInMemory (bname : String)
  | AccessingDeallocatedAddress (addr : Nat)
  | BadCallArity
  | BadGCField
  | BadPhiPredecessor (actual_predecessor : String)
  | CallingNonCode
  | CodeAddressArithmetic (bname : String)
  | CorruptGCMetadata (val : VirtualVal)
  | GCRequired
  | InvalidBlock (bname : String)
  | InvalidBlockInControl (bname : String)
  | MissingMain
  | NullPointer
  | OutOfMemory
  | PhiInFirstBlock
  | UnalignedAccess (addr : Nat)
  | UnallocatedAddressRead (addr : Nat)
  | UnallocatedAddressWrite (addr : Nat)
  | UninitializedVariable (name : String)
  | UndefinedVariable
  | UndefinedGlobal (name : String)
  | ReadFromGCedData
  | WriteToGCedData
  | WriteToImmutableData
  | NYI
deriving DecidableEq, Repr

/-- How an execution step can fail: a surfaced `RuntimeError`, a Rust
panic (`panic!`, `assert!`, index out of bounds, division by zero), or
exhaustion of the explicit fuel that bounds unbounded recursion. -/
inductive Failure where
  | err (e : RuntimeError)
  | panicked
  | noFuel
deriving DecidableEq, Repr

/-- Association-list lookup (model of `HashMap::get` / `BTreeMap::get`). -/
def lookupA {K A : Type} [DecidableEq K] : List (K × A) → K → Option A
  | [], _ => none
  | (k', v) :: rest, k => if k' = k then some v else lookupA rest k

/-- Association-list insert with replacement
(model of `HashMap::insert` / `BTreeMap::insert`). -/
def insertA {K A : Type} [DecidableEq K] : List (K × A) → K → A → List (K × A)
  | [], k, v => [(k, v)]
  | (k', v') :: rest, k, v =>
      if k' = k then (k, v) :: rest else (k', v') :: insertA rest k v

/-- The cell store of `Memory` (`BTreeMap<u64, VirtualVal>`). -/
abbrev MMap := List (Nat × VirtualVal)

/-- Local environment: `HashMap<&str, VirtualVal>`. -/
abbrev Locals := List (String × VirtualVal)

/-- Global environment: `HashMap<&str, u64>`. -/
abbrev GlobalsMap := List (String × Nat)

/-- The `Memory` struct of exec.rs (field `map` is the `cells` store). -/
structure Memory where
  map : MMap
  base : Nat
  first_writable : Nat
  next_alloc : Nat
  slot_cap : Option Nat
  slots_alloced : Nat
deriving DecidableEq, Repr

/-- Modelled from the spec: the `GlobalStatic::Array` variant of
`nodes.rs` (spec section 6). -/
structure GlobalStatic where
  name : String
  vals : List VirtualVal
deriving DecidableEq, Repr

/-- Modelled from the spec: IR expressions from `nodes.rs`
(spec section 4.5).  `IntLit` carries a value already widened to `u64`
(`u64::from` in exec.rs). -/
inductive IRExpr where
  | IntLit (val : Nat)
  | Var (id : String)
  | BlockRef (bname : String)
  | GlobalRef (name : String)
deriving DecidableEq, Repr

/-- Modelled from the spec: IR instructions from `nodes.rs`
(spec section 3), with the payload shapes used by exec.rs. -/
inductive IRStatement where
  | Print (out : IRExpr)
  | Alloc (lhs : String) (slots : Nat)
  | VarAssign (lhs : String) (rhs : IRExpr)
  | Phi (lhs : String) (opts : List (String × IRExpr))
  | Call (lhs : String) (code : IRExpr) (receiver : IRExpr) (args : List IRExpr)
  | SetElt (base : IRExpr) (offset : IRExpr) (val : IRExpr)
  | GetElt (lhs : String) (base : IRExpr) (offset : IRExpr)
  | Load (lhs : String) (base : IRExpr)
  | Store (base : IRExpr) (val : IRExpr)
  | Op (lhs : String) (arg1 : IRExpr) (op : String) (arg2 : IRExpr)
deriving DecidableEq, Repr

/-- Modelled from the spec: block terminators from `nodes.rs`
(spec section 3). -/
inductive ControlXfer where
  | Ret (val : IRExpr)
  | Jump (block : String)
  | If (cond : IRExpr) (tblock : String) (fblock : String)
  | Fail (reason : String)
deriving DecidableEq, Repr

/-- Modelled from the spec: `BasicBlock` from `nodes.rs` (spec section 6). -/
structure BasicBlock where
  name : String
  formals : List String
  instrs : List IRStatement
  next : ControlXfer
deriving DecidableEq, Repr

/-- Modelled from the spec: `IRProgram` from `nodes.rs` (spec section 6);
the block table is an association list from block name to block. -/
structure IRProgram where
  globals : List GlobalStatic
  blocks : List (String × BasicBlock)
deriving DecidableEq, Repr

/-- Inner loop of `Memory::new`: write one global array's values into
successive cells, advancing the cursor by 8 per value. -/
def writeVals : List VirtualVal → Nat → MMap → Nat × MMap
  | [], cur, m => (cur, m)
  | v :: rest, cur, m => writeVals rest (wadd cur 8) (insertA m cur v)

/-- Outer loop of `Memory::new`: record each global's address then write
its values. -/
def initGlobals : List GlobalStatic → Nat → MMap → GlobalsMap → Nat × MMap × GlobalsMap
  | [], cur, m, g => (cur, m, g)
  | gs :: rest, cur, m, g =>
      let g' := insertA g gs.name cur
      let (cur', m') := writeVals gs.vals cur m
      initGlobals rest cur' m' g'

/-- `Memory::new`: bump cursor starts at 32; globals are laid out first;
then `first_writable = base = next_alloc = cursor`, `slots_alloced = 0`. -/
def Memory.new (prog : IRProgram) (slot_cap : Option Nat) : Memory × GlobalsMap :=
  let (cur, m, g) := initGlobals prog.globals 32 [] []
  ({ map := m, base := cur, first_writable := cur, next_alloc := cur,
     slot_cap := slot_cap, slots_alloced := 0 }, g)

/-- `Memory::mem_lookup`: checks, in source order, null address, the
evacuated region, alignment, presence, and tombstones.  The source takes
`&mut self` but performs no mutation, so the embedding is a pure
function of the memory. -/
def Memory.mem_lookup (m : Memory) (addr : Nat) : Except Failure VirtualVal :=
  if addr = 0 then
    .error (.err .NullPointer)
  else if m.first_writable ≤ addr ∧ addr < m.base then
    .error (.err .ReadFromGCedData)
  else if addr % 8 = 0 then
    match lookupA m.map addr with
    | none => .error (.err (.UnallocatedAddressRead addr))
    | some .GCTombstone => .error (.err (.AccessingDeallocatedAddress addr))
    | some v => .ok v
  else
    .error (.err (.UnalignedAccess addr))

/-- `Memory::mem_store`: checks, in source order, null address, the
immutable globals, the evacuated region, alignment, presence, and
tombstones; on success overwrites the cell and returns the old value. -/
def Memory.mem_store (m : Memory) (addr : Nat) (val : VirtualVal) :
    Except Failure (VirtualVal × Memory) :=
  if addr = 0 then
    .error (.err .NullPointer)
  else if addr < m.first_writable then
    .error (.err .WriteToImmutableData)
  else if addr < m.base then
    .error (.err .WriteToGCedData)
  else if addr % 8 = 0 then
    match lookupA m.map addr with
    | none => .error (.err (.UnallocatedAddressWrite addr))
    | some .GCTombstone => .error (.err (.AccessingDeallocatedAddress addr))
    | some old => .ok (old, { m with map := insertA m.map addr val })
  else
    .error (.err (.UnalignedAccess addr))

/-- The insertion loops shared by `alloc` and `reserve`: insert
`Data 0` at `count` successive cells starting at `loc`, stepping by 8. -/
def zeroFill : MMap → Nat → Nat → MMap
  | m, _, 0 => m
  | m, loc, count + 1 => zeroFill (insertA m loc (.Data 0)) (wadd loc 8) count

/-- `Memory::alloc`: optional cap check (`slots_alloced + n + 1 > cap`
signals `GCRequired`), then skip one gap word, return the next address,
and zero-initialize `n` cells.  Note the source never updates
`slots_alloced` here. -/
def Memory.alloc (m : Memory) (n : Nat) : Except Failure (Nat × Memory) :=
  if m.slot_cap.isSome ∧ wadd (wadd m.slots_alloced n) 1 > m.slot_cap.getD 0 then
    .error (.err .GCRequired)
  else
    .ok (wadd m.next_alloc 8,
         { m with map := zeroFill m.map (wadd m.next_alloc 8) n,
                  next_alloc := wadd (wadd m.next_alloc 8) (8 * n) })

/-- `Memory::reserve`: cap check against `slot_cap` (defaulting to
`u64::MAX`), then allocate `slots_including_metadata` zero-initialized
cells with no gap word, bumping `slots_alloced`. -/
def Memory.reserve (m : Memory) (slots_including_metadata : Nat) :
    Except Failure (Nat × Memory) :=
  if wadd m.slots_alloced slots_including_metadata > m.slot_cap.getD (2 ^ 64 - 1) then
    .error (.err .OutOfMemory)
  else
    .ok (m.next_alloc,
         { m with map := zeroFill m.map m.next_alloc slots_including_metadata,
                  next_alloc := wadd m.next_alloc (8 * slots_including_metadata),
                  slots_alloced := wadd m.slots_alloced slots_including_metadata })

/-- The payload loop of `Memory::trace`, parameterized by the recursive
tracing function: for each of `count` payload slots read the old slot,
either trace it (low slot-map bit set) or copy it verbatim, and write it
into the new object. -/
def traceSlotsF (traceRec : Memory → Nat → Except Failure (Nat × Memory))
    (oldaddr new_obj_base : Nat) :
    Nat → Nat → Nat → Memory → Except Failure Memory
  | _, _, 0, m => .ok m
  | slotmap, i, count + 1, m =>
    match m.mem_lookup (wadd oldaddr (8 * i)) with
    | .error f => .error f
    | .ok orig =>
      if slotmap % 2 = 1 then
        match orig with
        | .GCTombstone => .error (.err (.CorruptGCMetadata orig))
        | .CodePtr _ => .error (.err .BadGCField)
        | .Data to_trace =>
          match traceRec m to_trace with
          | .error f => .error f
          | .ok (moved_to, m') =>
            match m'.mem_store (wadd new_obj_base (8 * i)) (.Data moved_to) with
            | .error f => .error f
            | .ok (_, m'') => traceSlotsF traceRec oldaddr new_obj_base (slotmap / 2) (i + 1) count m''
      else
        match m.mem_store (wadd new_obj_base (8 * i)) orig with
        | .error f => .error f
        | .ok (_, m') => traceSlotsF traceRec oldaddr new_obj_base (slotmap / 2) (i + 1) count m'

/-- `Memory::trace`: relocate one object, with fuel bounding the
unbounded recursion of the source.  Reads the forwarding slot at
`addr - 16`; a non-zero forwarding value short-circuits (after the
source's `assert!` that it is a live key); otherwise the object is
copied to freshly reserved cells and its payload slots are processed by
`traceSlotsF`.  The source writes the new header's forwarding word as 0
and never writes the old header. -/
def Memory.trace : Nat → Memory → Nat → Except Failure (Nat × Memory)
  | 0, _, _ => .error .noFuel
  | fuel + 1, m, addr =>
    match lookupA m.map (wsub addr (2 * 8)) with
    | none => .error (.err (.UnallocatedAddressRead addr))
    | some (.Data val) =>
      if val ≠ 0 then
        if (lookupA m.map val).isSome then .ok (val, m) else .error .panicked
      else
        match lookupA m.map (wsub addr (3 * 8)) with
        | none => .error (.err (.UnallocatedAddressRead addr))
        | some allocsizev =>
          match allocsizev with
          | .Data allocsize =>
            match lookupA m.map (wsub addr 8) with
            | none => .error (.err (.UnallocatedAddressRead addr))
            | some slotmapv =>
              match slotmapv with
              | .Data slotmap =>
                match m.reserve allocsize with
                | .error f => .error f
                | .ok (new_metadata_loc, m1) =>
                  match m1.mem_store new_metadata_loc allocsizev with
                  | .error f => .error f
                  | .ok (_, m2) =>
                    match m2.mem_store (wadd new_metadata_loc 8) (.Data 0) with
                    | .error f => .error f
                    | .ok (_, m3) =>
                      match m3.mem_store (wadd new_metadata_loc 16) slotmapv with
                      | .error f => .error f
                      | .ok (_, m4) =>
                        match traceSlotsF (fun mm a => Memory.trace fuel mm a)
                                addr (wadd new_metadata_loc 24) slotmap 0
                                (allocsize - 3) m4 with
                        | .error f => .error f
                        | .ok m5 => .ok (wadd new_metadata_loc 24, m5)
              | v => .error (.err (.CorruptGCMetadata v))
          | v => .error (.err (.CorruptGCMetadata v))
    | some v => .error (.err (.CorruptGCMetadata v))

/-- The root scan of `Memory::gc`: trace every `Data` local, leave
`CodePtr` locals alone, and panic on a `GCTombstone` local. -/
def gcRoots (fuel : Nat) (m : Memory) : Locals → Except Failure (Memory × Locals)
  | [] => .ok (m, [])
  | (x, v) :: rest =>
    match v with
    | .CodePtr b =>
      match gcRoots fuel m rest with
      | .error f => .error f
      | .ok (m', rest') => .ok (m', (x, .CodePtr b) :: rest')
    | .Data val =>
      match m.trace fuel val with
      | .error f => .error f
      | .ok (newloc, m') =>
        match gcRoots fuel m' rest with
        | .error f => .error f
        | .ok (m'', rest') => .ok (m'', (x, .Data newloc) :: rest')
    | .GCTombstone => .error .panicked

/-- The wipe loop of `Memory::gc`: `mem_store` a `GCTombstone` at
`count` addresses starting at `loc`, stepping by 8 (the source's
`(base..new_base).step_by(8)` range). -/
def wipeSteps : Nat → Nat → Memory → Except Failure Memory
  | 0, _, m => .ok m
  | count + 1, loc, m =>
    match m.mem_store loc .GCTombstone with
    | .error f => .error f
    | .ok (_, m') => wipeSteps count (loc + 8) m'

/-- `Memory::gc`: panics when no slot cap is configured; otherwise
records `new_base := next_alloc`, resets `slots_alloced`, traces the
locals, tombstones every address of `[base, new_base)` via `mem_store`,
and finally sets `base := new_base`. -/
def Memory.gc (fuel : Nat) (m : Memory) (locals : Locals) :
    Except Failure (Memory × Locals) :=
  if m.slot_cap.isNone then .error .panicked
  else
    match gcRoots fuel { m with slots_alloced := 0 } locals with
    | .error f => .error f
    | .ok (m1, locals') =>
      match wipeSteps ((m.next_alloc - m1.base + 7) / 8) m1.base m1 with
      | .error f => .error f
      | .ok m2 => .ok ({ m2 with base := m.next_alloc }, locals')

/-- The `ExecStats` counter record of exec.rs; all counters start at 0. -/
structure ExecStats where
  fast_alu_ops : Nat := 0
  slow_alu_ops : Nat := 0
  conditional_branches : Nat := 0
  unconditional_branches : Nat := 0
  calls : Nat := 0
  rets : Nat := 0
  mem_reads : Nat := 0
  mem_writes : Nat := 0
  allocs : Nat := 0
  prints : Nat := 0
  phis : Nat := 0
deriving DecidableEq, Repr

def ExecStats.fast_op (s : ExecStats) : ExecStats :=
  { s with fast_alu_ops := s.fast_alu_ops + 1 }

def ExecStats.slow_op (s : ExecStats) : ExecStats :=
  { s with slow_alu_ops := s.slow_alu_ops + 1 }

def ExecStats.cond (s : ExecStats) : ExecStats :=
  { s with conditional_branches := s.conditional_branches + 1 }

def ExecStats.uncond (s : ExecStats) : ExecStats :=
  { s with unconditional_branches := s.unconditional_branches + 1 }

def ExecStats.call (s : ExecStats) : ExecStats :=
  { s with calls := s.calls + 1 }

def ExecStats.ret (s : ExecStats) : ExecStats :=
  { s with rets := s.rets + 1 }

def ExecStats.read (s : ExecStats) : ExecStats :=
  { s with mem_reads := s.mem_reads + 1 }

def ExecStats.write (s : ExecStats) : ExecStats :=
  { s with mem_writes := s.mem_writes + 1 }

def ExecStats.alloc (s : ExecStats) : ExecStats :=
  { s with allocs := s.allocs + 1 }

def ExecStats.printed (s : ExecStats) : ExecStats :=
  { s with prints := s.prints + 1 }

def ExecStats.phi (s : ExecStats) : ExecStats :=
  { s with phis := s.phis + 1 }

/-- The state threaded by `&mut` references through `run_code`:
the memory and the statistics counters. -/
structure ExecState where
  mem : Memory
  stats : ExecStats
deriving DecidableEq, Repr

/-- `read_var`: look a variable up in the locals. -/
def read_var (l : Locals) (v : String) : Except Failure VirtualVal :=
  match lookupA l v with
  | some x => .ok x
  | none => .error (.err (.UninitializedVariable v))

/-- `set_var`: bind a variable in the locals. -/
def set_var (l : Locals) (x : String) (val : VirtualVal) : Locals :=
  insertA l x val

/-- Block lookup in the program's block table (`prog.blocks.get`). -/
def lookupBlock (prog : IRProgram) (b : String) : Option BasicBlock :=
  lookupA prog.blocks b

/-- `expr_val`: the pure expression evaluator of exec.rs. -/
def expr_val (l : Locals) (globs : GlobalsMap) (prog : IRProgram) (e : IRExpr) :
    Except Failure VirtualVal :=
  match e with
  | .IntLit v => .ok (.Data v)
  | .Var n => read_var l n
  | .BlockRef b =>
    match lookupBlock prog b with
    | none => .error (.err (.InvalidBlock b))
    | some _ => .ok (.CodePtr b)
  | .GlobalRef n =>
    match lookupA globs n with
    | none => .error (.err (.UndefinedGlobal n))
    | some v => .ok (.Data v)

/-- The argument-binding loop of the `Call` case: evaluate each argument
and bind it to `formals[argidx]`; an out-of-range index is a Rust panic
(never reached once the arity check has passed). -/
def bindArgs (l : Locals) (globs : GlobalsMap) (prog : IRProgram)
    (formals : List String) : Locals → Nat → List IRExpr → Except Failure Locals
  | calleevars, _, [] => .ok calleevars
  | calleevars, argidx, arg :: rest =>
    match expr_val l globs prog arg with
    | .error f => .error f
    | .ok varg =>
      match formals.get? argidx with
      | none => .error .panicked
      | some fname => bindArgs l globs prog formals (set_var calleevars fname varg) (argidx + 1) rest

/-- The linear search of the `Phi` case: the first option whose block
name equals the dynamic predecessor. -/
def findPhi (pred : String) : List (String × IRExpr) → Option IRExpr
  | [] => none
  | (bname, src) :: rest => if pred = bname then some src else findPhi pred rest

/-- The instruction loop of `run_code`, parameterized by the function
`recurse` used to run a callee block (the recursive `run_code` call of
the `Call` case) and by the fuel handed to `Memory.gc`'s tracing.
Returns the updated locals and state, or the failure with the state at
the point of failure (memory and counters are `&mut` in the source, so
their updates survive an error). -/
def runInstrsF (prog : IRProgram) (globs : GlobalsMap) (gcFuel : Nat)
    (recurse : BasicBlock → Locals → ExecState → Except Failure VirtualVal × ExecState) :
    List IRStatement → Option String → Locals → ExecState →
    Except Failure Locals × ExecState
  | [], _, locs, st => (.ok locs, st)
  | i :: rest, prevblock, locs, st =>
    match i with
    | .Print e =>
      match expr_val locs globs prog e with
      | .error f => (.error f, st)
      | .ok _ =>
        runInstrsF prog globs gcFuel recurse rest prevblock locs
          ⟨st.mem, st.stats.printed⟩
    | .Alloc v n =>
      match st.mem.alloc n with
      | .ok (addr, m') =>
        runInstrsF prog globs gcFuel recurse rest prevblock
          (set_var locs v (.Data addr)) ⟨m', st.stats.alloc⟩
      | .error (.err .GCRequired) =>
        match Memory.gc gcFuel st.mem locs with
        | .error f => (.error f, st)
        | .ok (m', locs') =>
          match m'.alloc n with
          | .error (.err .GCRequired) => (.error (.err .OutOfMemory), ⟨m', st.stats⟩)
          | .error f => (.error f, ⟨m', st.stats⟩)
          | .ok (addr, m'') =>
            runInstrsF prog globs gcFuel recurse rest prevblock
              (set_var locs' v (.Data addr)) ⟨m'', st.stats⟩
      | .error f => (.error f, st)
    | .VarAssign var e =>
      match expr_val locs globs prog e with
      | .error f => (.error f, st)
      | .ok v =>
        runInstrsF prog globs gcFuel recurse rest prevblock
          (set_var locs var v) ⟨st.mem, st.stats.fast_op⟩
    | .Phi dest opts =>
      match prevblock with
      | none => (.error (.err .PhiInFirstBlock), st)
      | some pred =>
        match findPhi pred opts with
        | some src =>
          match expr_val locs globs prog src with
          | .error f => (.error f, st)
          | .ok v =>
            runInstrsF prog globs gcFuel recurse rest prevblock
              (set_var locs dest v) ⟨st.mem, st.stats.phi⟩
        | none => (.error (.err (.BadPhiPredecessor pred)), ⟨st.mem, st.stats.phi⟩)
    | .Call dest code rec args =>
      match expr_val locs globs prog code with
      | .error f => (.error f, st)
      | .ok vcode =>
        match vcode with
        | .Data _ => (.error (.err .CallingNonCode), st)
        | .GCTombstone => (.error (.err .CallingNonCode), st)
        | .CodePtr target_block_name =>
          match lookupBlock prog target_block_name with
          | none => (.error (.err (.InvalidBlock target_block_name)), st)
          | some target_block =>
            match expr_val locs globs prog rec with
            | .error f => (.error f, st)
            | .ok vrec =>
              match target_block.formals.get? 0 with
              | none => (.error .panicked, st)
              | some f0 =>
                let calleevars := set_var [] f0 vrec
                if args.length + 1 ≠ target_block.formals.length then
                  (.error (.err .BadCallArity), st)
                else
                  match bindArgs locs globs prog target_block.formals calleevars 1 args with
                  | .error f => (.error f, st)
                  | .ok calleevars' =>
                    match recurse target_block calleevars' ⟨st.mem, st.stats.call⟩ with
                    | (.error f, st') => (.error f, st')
                    | (.ok callresult, st') =>
                      runInstrsF prog globs gcFuel recurse rest prevblock
                        (set_var locs dest callresult) st'
    | .SetElt base off vexp =>
      match expr_val locs globs prog base with
      | .error f => (.error f, st)
      | .ok vbase =>
        match expr_val locs globs prog off with
        | .error f => (.error f, st)
        | .ok offv =>
          match expr_val locs globs prog vexp with
          | .error f => (.error f, st)
          | .ok v =>
            match vbase with
            | .CodePtr b => (.error (.err (.AccessingCodeInMemory b)), st)
            | .GCTombstone => (.error (.err .WriteToGCedData), st)
            | .Data n =>
              match offv with
              | .CodePtr offb => (.error (.err (.AccessingCodeInMemory offb)), st)
              | .GCTombstone => (.error (.err .ReadFromGCedData), st)
              | .Data offset =>
                let stats' := st.stats.slow_op.fast_op.write
                match st.mem.mem_store (wadd n (wmul 8 offset)) v with
                | .error f => (.error f, ⟨st.mem, stats'⟩)
                | .ok (_, m') =>
                  runInstrsF prog globs gcFuel recurse rest prevblock locs ⟨m', stats'⟩
    | .GetElt dest base off =>
      match expr_val locs globs prog base with
      | .error f => (.error f, st)
      | .ok v =>
        match expr_val locs globs prog off with
        | .error f => (.error f, st)
        | .ok offv =>
          match v with
          | .CodePtr b => (.error (.err (.AccessingCodeInMemory b)), st)
          | .GCTombstone => (.error (.err .ReadFromGCedData), st)
          | .Data n =>
            match offv with
            | .CodePtr offb => (.error (.err (.AccessingCodeInMemory offb)), st)
            | .GCTombstone => (.error (.err .ReadFromGCedData), st)
            | .Data offset =>
              let stats' := st.stats.slow_op.fast_op.read
              match st.mem.mem_lookup (wadd n (wmul 8 offset)) with
              | .error f => (.error f, ⟨st.mem, stats'⟩)
              | .ok mval =>
                runInstrsF prog globs gcFuel recurse rest prevblock
                  (set_var locs dest mval) ⟨st.mem, stats'⟩
    | .Load dest e =>
      match expr_val locs globs prog e with
      | .error f => (.error f, st)
      | .ok v =>
        match v with
        | .CodePtr b => (.error (.err (.AccessingCodeInMemory b)), st)
        | .GCTombstone => (.error (.err .ReadFromGCedData), st)
        | .Data n =>
          match st.mem.mem_lookup n with
          | .error f => (.error f, ⟨st.mem, st.stats.read⟩)
          | .ok memval =>
            runInstrsF prog globs gcFuel recurse rest prevblock
              (set_var locs dest memval) ⟨st.mem, st.stats.read⟩
    | .Store e ve =>
      match expr_val locs globs prog e with
      | .error f => (.error f, st)
      | .ok bv =>
        match expr_val locs globs prog ve with
        | .error f => (.error f, st)
        | .ok vv =>
          match bv with
          | .CodePtr b => (.error (.err (.AccessingCodeInMemory b)), st)
          | .GCTombstone => (.error (.err .WriteToGCedData), st)
          | .Data n =>
            match st.mem.mem_store n vv with
            | .error f => (.error f, ⟨st.mem, st.stats.write⟩)
            | .ok (_, m') =>
              runInstrsF prog globs gcFuel recurse rest prevblock locs
                ⟨m', st.stats.write⟩
    | .Op v e1 o e2 =>
      match expr_val locs globs prog e1 with
      | .error f => (.error f, st)
      | .ok v1 =>
        match expr_val locs globs prog e2 with
        | .error f => (.error f, st)
        | .ok v2 =>
          match v1, v2 with
          | .CodePtr b, _ => (.error (.err (.CodeAddressArithmetic b)), st)
          | _, .CodePtr b => (.error (.err (.CodeAddressArithmetic b)), st)
          | .GCTombstone, _ => (.error (.err .ReadFromGCedData), st)
          | _, .GCTombstone => (.error (.err .ReadFromGCedData), st)
          | .Data n1, .Data n2 =>
            if o = "+" then
              runInstrsF prog globs gcFuel recurse rest prevblock
                (set_var locs v (.Data (wadd n1 n2))) ⟨st.mem, st.stats.fast_op⟩
            else if o = "<<" then
              runInstrsF prog globs gcFuel recurse rest prevblock
                (set_var locs v (.Data (wshl n1 n2))) ⟨st.mem, st.stats.fast_op⟩
            else if o = ">>" then
              runInstrsF prog globs gcFuel recurse rest prevblock
                (set_var locs v (.Data (wshr n1 n2))) ⟨st.mem, st.stats.fast_op⟩
            else if o = "-" then
              runInstrsF prog globs gcFuel recurse rest prevblock
                (set_var locs v (.Data (wsub n1 n2))) ⟨st.mem, st.stats.fast_op⟩
            else if o = "/" then
              if n2 = 0 then (.error .panicked, ⟨st.mem, st.stats.slow_op⟩)
              else
                runInstrsF prog globs gcFuel recurse rest prevblock
                  (set_var locs v (.Data (n1 / n2))) ⟨st.mem, st.stats.slow_op⟩
            else if o = "*" then
              runInstrsF prog globs gcFuel recurse rest prevblock
                (set_var locs v (.Data (wmul n1 n2))) ⟨st.mem, st.stats.slow_op⟩
            else if o = "&" then
              runInstrsF prog globs gcFuel recurse rest prevblock
                (set_var locs v (.Data (Nat.land n1 n2))) ⟨st.mem, st.stats.fast_op⟩
            else if o = "|" then
              runInstrsF prog globs gcFuel recurse rest prevblock
                (set_var locs v (.Data (Nat.lor n1 n2))) ⟨st.mem, st.stats.fast_op⟩
            else if o = "^" then
              runInstrsF prog globs gcFuel recurse rest prevblock
                (set_var locs v (.Data (Nat.xor n1 n2))) ⟨st.mem, st.stats.fast_op⟩
            else if o = "<" then
              runInstrsF prog globs gcFuel recurse rest prevblock
                (set_var locs v (.Data (if n1 < n2 then 1 else 0))) ⟨st.mem, st.stats.fast_op⟩
            else if o = ">" then
              runInstrsF prog globs gcFuel recurse rest prevblock
                (set_var locs v (.Data (if n2 < n1 then 1 else 0))) ⟨st.mem, st.stats.fast_op⟩
            else if o = "==" then
              runInstrsF prog globs gcFuel recurse rest prevblock
                (set_var locs v (.Data (if n1 = n2 then 1 else 0))) ⟨st.mem, st.stats.fast_op⟩
            else
              (.error (.err .NYI), st)

/-- `run_code`: run one basic block (and, through its terminator chain,
one activation) to completion.  `fuel` bounds the number of block
transitions and nested calls; each activation starts with no previous
block.  The `Fail` terminator is a Rust `panic!`. -/
def runBlock (prog : IRProgram) (globs : GlobalsMap) :
    Nat → BasicBlock → Option String → Locals → ExecState →
    Except Failure VirtualVal × ExecState
  | 0, _, _, _, st => (.error .noFuel, st)
  | fuel + 1, cur_block, prevblock, locs, st =>
    match runInstrsF prog globs fuel
            (fun blk l s => runBlock prog globs fuel blk none l s)
            cur_block.instrs prevblock locs st with
    | (.error f, st') => (.error f, st')
    | (.ok locs', st') =>
      match cur_block.next with
      | .Fail _ => (.error .panicked, st')
      | .Ret e =>
        match expr_val locs' globs prog e with
        | .error f => (.error f, st')
        | .ok result => (.ok result, ⟨st'.mem, st'.stats.ret⟩)
      | .Jump b =>
        match lookupBlock prog b with
        | none => (.error (.err (.InvalidBlockInControl b)), st')
        | some target_block =>
          runBlock prog globs fuel target_block (some cur_block.name) locs'
            ⟨st'.mem, st'.stats.uncond⟩
      | .If cond tblock fblock =>
        match expr_val locs' globs prog cond with
        | .error f => (.error f, st')
        | .ok vcond =>
          match lookupBlock prog (if vcond = .Data 0 then fblock else tblock) with
          | none =>
            (.error (.err (.InvalidBlockInControl
              (if vcond = .Data 0 then fblock else tblock))), st')
          | some target_block =>
            runBlock prog globs fuel target_block (some cur_block.name) locs'
              ⟨st'.mem, st'.stats.cond⟩

/-- All-zero initial statistics. -/
def initStats : ExecStats := {}

/-- `run_prog`: check for `main`, build the memory and globals, and run
`main` with empty locals; returns the result together with the final
counters (which the source exposes through `&mut ExecStats` even when
the run fails). -/
def runProg (fuel : Nat) (prog : IRProgram) (cap : Option Nat) :
    Except Failure VirtualVal × ExecStats :=
  match lookupBlock prog "main" with
  | none => (.error (.err .MissingMain), initStats)
  | some cur_block =>
    let (m, globs) := Memory.new prog cap
    let (r, st) := runBlock prog globs fuel cur_block none [] ⟨m, initStats⟩
    (r, st.stats)

/-- An empty program (no globals, no blocks), used to build memories. -/
def demoProg : IRProgram := ⟨[], []⟩

/-- A fresh memory with slot cap 8: `first_writable = base = next_alloc = 32`. -/
def demoMem0 : Memory := (Memory.new demoProg (some 8)).1

/-- `demoMem0` after a program `Alloc` of 4 slots: gap word at 32 (never
inserted), cells 40–64 zero-initialized, `next_alloc = 72`. -/
def demoMemA : Memory :=
  match demoMem0.alloc 4 with
  | .ok (_, m) => m
  | _ => demoMem0

/-- `demoMemA` with the user-initialized GC header of a 4-slot object
whose payload address is 64: alloc-size `Data 4` at 40 (= 64 − 24),
forwarding `Data 0` at 48 (= 64 − 16), slot map `Data 0` at 56
(= 64 − 8). -/
def demoMem : Memory :=
  match demoMemA.mem_store 40 (.Data 4) with
  | .ok (_, m) => m
  | _ => demoMemA

/-- The memory after tracing the object at payload address 64 once. -/
def demoM3 : Memory :=
  match demoMem.trace 9 64 with
  | .ok (_, m) => m
  | _ => demoMem

/-- The memory after tracing the object at payload address 64 twice. -/
def demoM4 : Memory :=
  match demoM3.trace 9 64 with
  | .ok (_, m) => m
  | _ => demoM3

/-- Like `demoMem` but the object is cyclic: its slot map is `Data 1`
and its single payload slot at 64 holds its own payload address
`Data 64`. -/
def cycMem : Memory :=
  match demoMem.mem_store 56 (.Data 1) with
  | .ok (_, m) =>
    (match m.mem_store 64 (.Data 64) with
     | .ok (_, m2) => m2
     | _ => m)
  | _ => demoMem

/-- `demoMem0` after a program `Alloc` of 2 slots. -/
def c3mem : Memory :=
  match demoMem0.alloc 2 with
  | .ok (_, m) => m
  | _ => demoMem0

/-- Scenario S1: `main { %x = 2+3; %y = %x*4; ret %y }`. -/
def s1prog : IRProgram :=
  ⟨[], [("main", ⟨"main", [],
        [.Op "x" (.IntLit 2) "+" (.IntLit 3), .Op "y" (.Var "x") "*" (.IntLit 4)],
        .Ret (.Var "y")⟩)]⟩

/-- A call to a block with zero formal parameters. -/
def callZeroFormalsProg : IRProgram :=
  ⟨[], [("main", ⟨"main", [], [.Call "r" (.BlockRef "bb") (.IntLit 1) []],
         .Ret (.Var "r")⟩),
        ("bb", ⟨"bb", [], [], .Ret (.IntLit 0)⟩)]⟩

/-- Scenario S6: a call passing receiver plus two arguments to a block
whose formals are `[self, x]`. -/
def callBadArityProg : IRProgram :=
  ⟨[], [("main", ⟨"main", [],
         [.Call "r" (.BlockRef "bb") (.IntLit 1) [.IntLit 2, .IntLit 3]],
         .Ret (.Var "r")⟩),
        ("bb", ⟨"bb", ["self", "x"], [], .Ret (.Var "x")⟩)]⟩

/-- The program used to witness the `If`-truthiness claim. -/
def ifProg : IRProgram :=
  ⟨[], [("t", ⟨"t", [], [], .Ret (.IntLit 1)⟩),
        ("f", ⟨"f", [], [], .Ret (.IntLit 2)⟩)]⟩

/-- The true-branch block of `ifProg`. -/
def ifTBlk : BasicBlock := ⟨"t", [], [], .Ret (.IntLit 1)⟩

/-- The false-branch block of `ifProg`. -/
def ifFBlk : BasicBlock := ⟨"f", [], [], .Ret (.IntLit 2)⟩

/-- Locals holding the two operands of a binary operation. -/
def opLocals (n1 n2 : Nat) : Locals := [("a", .Data n1), ("b", .Data n2)]

/-- A quiescent state for single-instruction runs. -/
def opState : ExecState := ⟨demoMem0, initStats⟩

/-- Execute the single instruction `%c = %a op %b` on operands
`n1`, `n2` (the `Op` arm of `run_code`; the callee hook and GC fuel are
irrelevant because `Op` neither calls nor allocates). -/
def runOp (o : String) (n1 n2 : Nat) : Except Failure Locals × ExecState :=
  runInstrsF demoProg [] 0 (fun _ _ s => (.error .noFuel, s))
    [.Op "c" (.Var "a") o (.Var "b")] none (opLocals n1 n2) opState

/-- Every address present as a key of the cell store is a multiple
of 8. -/
def alignedMap (m : MMap) : Prop := ∀ p ∈ m, 8 ∣ p.1

/-- The alignment invariant of a memory: every key of `cells` is a
multiple of 8, and so is the bump pointer (the auxiliary fact that
makes the invariant inductive). -/
def Memory.aligned (m : Memory) : Prop := alignedMap m.map ∧ 8 ∣ m.next_alloc

/-- Replace a memory's slot cap, leaving all other fields unchanged. -/
def setCap (m : Memory) (c : Option Nat) : Memory := { m with slot_cap := c }

/-- Transport an interpreter result along a slot-cap replacement. -/
def liftCap {A : Type} (c : Option Nat) :
    Except Failure A × ExecState → Except Failure A × ExecState :=
  fun p => (p.1, ⟨setCap p.2.mem c, p.2.stats⟩)

/-- An instruction that is not `Alloc`. -/
def stmtHasNoAlloc : IRStatement → Bool
  | .Alloc _ _ => false
  | _ => true

/-- A block containing no `Alloc` instruction. -/
def blockHasNoAlloc (b : BasicBlock) : Bool := b.instrs.all stmtHasNoAlloc

/-- A program containing no `Alloc` instruction in any block. -/
def progHasNoAlloc (p : IRProgram) : Bool :=
  p.blocks.all (fun q => blockHasNoAlloc q.2)

lemma dvd_wadd {a b : Nat} (ha : 8 ∣ a) (hb : 8 ∣ b) : 8 ∣ wadd a b := by
  have h64 : (8 : Nat) ∣ 2 ^ 64 := ⟨2 ^ 61, by norm_num⟩
  exact (Nat.dvd_mod_iff h64).mpr (Nat.dvd_add ha hb)

lemma alignedMap_insertA {k : Nat} {v : VirtualVal} :
    ∀ {m : MMap}, alignedMap m → 8 ∣ k → alignedMap (insertA m k v) := by
  intro m
  induction m with
  | nil =>
    intro _ hk p hp
    simp [insertA] at hp
    subst hp
    exact hk
  | cons hd tl ih =>
    obtain ⟨k', v'⟩ := hd
    intro hm hk
    have hk' : 8 ∣ k' := hm (k', v') (by simp)
    have htl : alignedMap tl := fun p hp => hm p (List.mem_cons_of_mem _ hp)
    intro p hp
    simp only [insertA] at hp
    split at hp
    · rcases List.mem_cons.mp hp with h1 | h2
      · rw [h1]; exact hk
      · exact hm p (List.mem_cons_of_mem _ h2)
    · rcases List.mem_cons.mp hp with h1 | h2
      · rw [h1]; exact hk'
      · exact ih htl hk p h2

lemma alignedMap_zeroFill :
    ∀ (count : Nat) (m : MMap) (loc : Nat),
      alignedMap m → 8 ∣ loc → alignedMap (zeroFill m loc count) := by
  intro count
  induction count with
  | zero =>
    intro m loc hm _
    simpa [zeroFill] using hm
  | succ k ih =>
    intro m loc hm hl
    simp only [zeroFill]
    exact ih _ _ (alignedMap_insertA hm hl) (dvd_wadd hl (by norm_num))

lemma aligned_mem_store {m : Memory} {a : Nat} {v old : VirtualVal} {m' : Memory}
    (hm : m.aligned) (h : m.mem_store a v = .ok (old, m')) : m'.aligned := by
  unfold Memory.mem_store at h
  by_cases h0 : a = 0
  · rw [if_pos h0] at h; exact Except.noConfusion h
  · rw [if_neg h0] at h
    by_cases h1 : a < m.first_writable
    · rw [if_pos h1] at h; exact Except.noConfusion h
    · rw [if_neg h1] at h
      by_cases h2 : a < m.base
      · rw [if_pos h2] at h; exact Except.noConfusion h
      · rw [if_neg h2] at h
        by_cases h3 : a % 8 = 0
        · rw [if_pos h3] at h
          split at h
          · exact Except.noConfusion h
          · exact Except.noConfusion h
          · injection h with hh
            injection hh with hh1 hh2
            rw [← hh2]
            exact ⟨alignedMap_insertA hm.1 (Nat.dvd_of_mod_eq_zero h3), hm.2⟩
        · rw [if_neg h3] at h; exact Except.noConfusion h

lemma aligned_reserve {m : Memory} {n r : Nat} {m' : Memory}
    (hm : m.aligned) (h : m.reserve n = .ok (r, m')) : m'.aligned := by
  unfold Memory.reserve at h
  by_cases hc : wadd m.slots_alloced n > m.slot_cap.getD (2 ^ 64 - 1)
  · rw [if_pos hc] at h; exact Except.noConfusion h
  · rw [if_neg hc] at h
    injection h with hh
    injection hh with hh1 hh2
    rw [← hh2]
    exact ⟨alignedMap_zeroFill _ _ _ hm.1 hm.2,
           dvd_wadd hm.2 (dvd_mul_right 8 n)⟩

lemma aligned_alloc {m : Memory} {n r : Nat} {m' : Memory}
    (hm : m.aligned) (h : m.alloc n = .ok (r, m')) : m'.aligned := by
  unfold Memory.alloc at h
  by_cases hc : m.slot_cap.isSome ∧ wadd (wadd m.slots_alloced n) 1 > m.slot_cap.getD 0
  · rw [if_pos hc] at h; exact Except.noConfusion h
  · rw [if_neg hc] at h
    injection h with hh
    injection hh with hh1 hh2
    rw [← hh2]
    have hr : 8 ∣ wadd m.next_alloc 8 := dvd_wadd hm.2 (by norm_num)
    exact ⟨alignedMap_zeroFill _ _ _ hm.1 hr, dvd_wadd hr (dvd_mul_right 8 n)⟩

lemma aligned_traceSlotsF
    (traceRec : Memory → Nat → Except Failure (Nat × Memory))
    (hrec : ∀ mm a r mm', traceRec mm a = .ok (r, mm') → mm.aligned → mm'.aligned)
    (oldaddr nob : Nat) :
    ∀ (count slotmap i : Nat) (m m' : Memory),
      traceSlotsF traceRec oldaddr nob slotmap i count m = .ok m' →
      m.aligned → m'.aligned := by
  intro count
  induction count with
  | zero =>
    intro slotmap i m m' h hm
    unfold traceSlotsF at h
    injection h with hh
    rw [← hh]
    exact hm
  | succ k ih =>
    intro slotmap i m m' h hm
    unfold traceSlotsF at h
    split at h
    · exact Except.noConfusion h
    · rename_i orig heqL
      by_cases hbit : slotmap % 2 = 1
      · rw [if_pos hbit] at h
        split at h
        · exact Except.noConfusion h
        · exact Except.noConfusion h
        · rename_i tt
          split at h
          · exact Except.noConfusion h
          · rename_i mt m1 heqT
            split at h
            · exact Except.noConfusion h
            · rename_i w m2 heqS
              exact ih _ _ _ _ h (aligned_mem_store (hrec _ _ _ _ heqT hm) heqS)
      · rw [if_neg hbit] at h
        split at h
        · exact Except.noConfusion h
        · rename_i w m2 heqS
          exact ih _ _ _ _ h (aligned_mem_store hm heqS)

lemma aligned_trace :
    ∀ (fuel : Nat) (m : Memory) (addr r : Nat) (m' : Memory),
      Memory.trace fuel m addr = .ok (r, m') → m.aligned → m'.aligned := by
  intro fuel
  induction fuel with
  | zero =>
    intro m addr r m' h hm
    unfold Memory.trace at h
    exact Except.noConfusion h
  | succ f ih =>
    intro m addr r m' h hm
    unfold Memory.trace at h
    split at h
    · exact Except.noConfusion h
    · rename_i val heqF
      by_cases hnz : val ≠ 0
      · rw [if_pos hnz] at h
        by_cases hlive : (lookupA m.map val).isSome = true
        · rw [if_pos hlive] at h
          injection h with hh
          injection hh with hh1 hh2
          rw [← hh2]
          exact hm
        · rw [if_neg hlive] at h
          exact Except.noConfusion h
      · rw [if_neg hnz] at h
        split at h
        · exact Except.noConfusion h
        · rename_i allocsizev heqA
          split at h
          · rename_i allocsize
            split at h
            · exact Except.noConfusion h
            · rename_i slotmapv heqSm
              split at h
              · rename_i slotmap
                split at h
                · exact Except.noConfusion h
                · rename_i nml m1 heqR
                  split at h
                  · exact Except.noConfusion h
                  · rename_i w1 m2 heqS1
                    split at h
                    · exact Except.noConfusion h
                    · rename_i w2 m3 heqS2
                      split at h
                      · exact Except.noConfusion h
                      · rename_i w3 m4 heqS3
                        split at h
                        · exact Except.noConfusion h
                        · rename_i m5 heqTS
                          injection h with hh
                          injection hh with hh1 hh2
                          rw [← hh2]
                          have hm1 := aligned_reserve hm heqR
                          have hm2 := aligned_mem_store hm1 heqS1
                          have hm3 := aligned_mem_store hm2 heqS2
                          have hm4 := aligned_mem_store hm3 heqS3
                          exact aligned_traceSlotsF _
                            (fun mm a rr mm' hhh hmm => ih mm a rr mm' hhh hmm)
                            _ _ _ _ _ _ _ heqTS hm4
              · exact Except.noConfusion h
          · exact Except.noConfusion h
    · exact Except.noConfusion h

lemma aligned_gcRoots :
    ∀ (locs : Locals) (fuel : Nat) (m m' : Memory) (locs' : Locals),
      gcRoots fuel m locs = .ok (m', locs') → m.aligned → m'.aligned := by
  intro locs
  induction locs with
  | nil =>
    intro fuel m m' locs' h hm
    unfold gcRoots at h
    injection h with hh
    injection hh with hh1 hh2
    rw [← hh1]
    exact hm
  | cons hd tl ih =>
    obtain ⟨x, v⟩ := hd
    intro fuel m m' locs' h hm
    unfold gcRoots at h
    split at h
    · rename_i b
      split at h
      · exact Except.noConfusion h
      · rename_i m1 tl' heqG
        injection h with hh
        injection hh with hh1 hh2
        rw [← hh1]
        exact ih fuel m m1 tl' heqG hm
    · rename_i val
      split at h
      · exact Except.noConfusion h
      · rename_i nl m1 heqT
        split at h
        · exact Except.noConfusion h
        · rename_i m2 tl' heqG
          injection h with hh
          injection hh with hh1 hh2
          rw [← hh1]
          exact ih fuel m1 m2 tl' heqG (aligned_trace fuel m val nl m1 heqT hm)
    · exact Except.noConfusion h

lemma aligned_wipeSteps :
    ∀ (count loc : Nat) (m m' : Memory),
      wipeSteps count loc m = .ok m' → m.aligned → m'.aligned := by
  intro count
  induction count with
  | zero =>
    intro loc m m' h hm
    unfold wipeSteps at h
    injection h with hh
    rw [← hh]
    exact hm
  | succ k ih =>
    intro loc m m' h hm
    unfold wipeSteps at h
    split at h
    · exact Except.noConfusion h
    · rename_i w m1 heqS
      exact ih _ _ _ h (aligned_mem_store hm heqS)

lemma aligned_gc {fuel : Nat} {m : Memory} {locs : Locals} {m' : Memory} {locs' : Locals}
    (hm : m.aligned) (h : Memory.gc fuel m locs = .ok (m', locs')) : m'.aligned := by
  unfold Memory.gc at h
  by_cases hcap : m.slot_cap.isNone = true
  · rw [if_pos hcap] at h; exact Except.noConfusion h
  · rw [if_neg hcap] at h
    split at h
    · exact Except.noConfusion h
    · rename_i m1 locs1 heqG
      split at h
      · exact Except.noConfusion h
      · rename_i m2 heqW
        injection h with hh
        injection hh with hh1 hh2
        rw [← hh1]
        have hm0 : Memory.aligned { m with slots_alloced := 0 } := ⟨hm.1, hm.2⟩
        have hm1 := aligned_gcRoots locs fuel _ m1 locs1 heqG hm0
        have hm2 := aligned_wipeSteps _ _ _ _ heqW hm1
        exact ⟨hm2.1, hm2.2⟩

lemma writeVals_aligned :
    ∀ (vs : List VirtualVal) (cur : Nat) (mm : MMap),
      alignedMap mm → 8 ∣ cur →
      alignedMap (writeVals vs cur mm).2 ∧ 8 ∣ (writeVals vs cur mm).1 := by
  intro vs
  induction vs with
  | nil =>
    intro cur mm hm hc
    exact ⟨hm, hc⟩
  | cons v rest ih =>
    intro cur mm hm hc
    simp only [writeVals]
    exact ih _ _ (alignedMap_insertA hm hc) (dvd_wadd hc (by norm_num))

lemma initGlobals_aligned :
    ∀ (gs : List GlobalStatic) (cur : Nat) (mm : MMap) (g : GlobalsMap),
      alignedMap mm → 8 ∣ cur →
      alignedMap (initGlobals gs cur mm g).2.1 ∧ 8 ∣ (initGlobals gs cur mm g).1 := by
  intro gs
  induction gs with
  | nil =>
    intro cur mm g hm hc
    exact ⟨hm, hc⟩
  | cons hd rest ih =>
    intro cur mm g hm hc
    simp only [initGlobals]
    have hw := writeVals_aligned hd.vals cur mm hm hc
    exact ih _ _ _ hw.1 hw.2

lemma lookupA_mem {K A : Type} [DecidableEq K] :
    ∀ (l : List (K × A)) (k : K) (v : A), lookupA l k = some v → (k, v) ∈ l := by
  intro l
  induction l with
  | nil => intro k v h; exact Option.noConfusion h
  | cons hd tl ih =>
    obtain ⟨k', v'⟩ := hd
    intro k v h
    unfold lookupA at h
    by_cases hk : k' = k
    · rw [if_pos hk] at h
      injection h with hh
      rw [← hh, hk]
      exact List.mem_cons_self _ _
    · rw [if_neg hk] at h
      exact List.mem_cons_of_mem _ (ih k v h)

lemma prog_block_noAlloc {prog : IRProgram} {bname : String} {blk : BasicBlock}
    (hprog : progHasNoAlloc prog = true) (hb : lookupBlock prog bname = some blk) :
    blockHasNoAlloc blk = true := by
  have hmem := lookupA_mem _ _ _ hb
  exact List.all_eq_true.mp hprog ⟨bname, blk⟩ hmem

lemma mem_lookup_setCap (m : Memory) (c : Option Nat) (a : Nat) :
    (setCap m c).mem_lookup a = m.mem_lookup a := rfl

lemma mem_store_setCap (m : Memory) (c : Option Nat) (a : Nat) (v : VirtualVal) :
    (setCap m c).mem_store a v =
      (m.mem_store a v).map (fun p => (p.1, setCap p.2 c)) := by
  unfold Memory.mem_store setCap
  dsimp only
  by_cases h0 : a = 0
  · rw [if_pos h0, if_pos h0]; rfl
  · rw [if_neg h0, if_neg h0]
    by_cases h1 : a < m.first_writable
    · rw [if_pos h1, if_pos h1]; rfl
    · rw [if_neg h1, if_neg h1]
      by_cases h2 : a < m.base
      · rw [if_pos h2, if_pos h2]; rfl
      · rw [if_neg h2, if_neg h2]
        by_cases h3 : a % 8 = 0
        · rw [if_pos h3, if_pos h3]
          cases hl : lookupA m.map a with
          | none => rfl
          | some w => cases w <;> rfl
        · rw [if_neg h3, if_neg h3]; rfl

lemma runInstrsF_setCap (prog : IRProgram) (globs : GlobalsMap) (gcFuel : Nat)
    (c : Option Nat)
    (recurse : BasicBlock → Locals → ExecState → Except Failure VirtualVal × ExecState)
    (hrec : ∀ bname blk, lookupBlock prog bname = some blk →
      ∀ l mm s, recurse blk l ⟨setCap mm c, s⟩ = liftCap c (recurse blk l ⟨mm, s⟩)) :
    ∀ (stmts : List IRStatement) (prev : Option String) (locs : Locals)
      (mm : Memory) (s : ExecStats),
      stmts.all stmtHasNoAlloc = true →
      runInstrsF prog globs gcFuel recurse stmts prev locs ⟨setCap mm c, s⟩ =
        liftCap c (runInstrsF prog globs gcFuel recurse stmts prev locs ⟨mm, s⟩) := by
  intro stmts
  induction stmts with
  | nil => intro prev locs mm s hall; rfl
  | cons i rest ih =>
    intro prev locs mm s hall
    rw [List.all_cons, Bool.and_eq_true] at hall
    obtain ⟨hno, hrest⟩ := hall
    cases i with
    | Alloc v n => simp [stmtHasNoAlloc] at hno
    | Print e =>
      simp only [runInstrsF]
      cases he : expr_val locs globs prog e with
      | error f => rfl
      | ok v => exact ih prev locs mm _ hrest
    | VarAssign var e =>
      simp only [runInstrsF]
      cases he : expr_val locs globs prog e with
      | error f => rfl
      | ok v => exact ih prev _ mm _ hrest
    | Phi dest opts =>
      simp only [runInstrsF]
      cases prev with
      | none => rfl
      | some pred =>
        dsimp only
        cases hf : findPhi pred opts with
        | none => rfl
        | some src =>
          dsimp only
          cases he : expr_val locs globs prog src with
          | error f => rfl
          | ok v => exact ih _ _ mm _ hrest
    | Call dest code rec args =>
      simp only [runInstrsF]
      cases hc : expr_val locs globs prog code with
      | error f => rfl
      | ok vcode =>
        cases vcode with
        | Data d => rfl
        | GCTombstone => rfl
        | CodePtr tname =>
          dsimp only
          cases hb : lookupBlock prog tname with
          | none => rfl
          | some tblk =>
            dsimp only
            cases hv : expr_val locs globs prog rec with
            | error f => rfl
            | ok vrec =>
              dsimp only
              cases hf0 : tblk.formals.get? 0 with
              | none => rfl
              | some f0 =>
                dsimp only
                by_cases har : args.length + 1 ≠ tblk.formals.length
                · simp only [if_pos har]; rfl
                · simp only [if_neg har]
                  cases hba : bindArgs locs globs prog tblk.formals
                      (set_var [] f0 vrec) 1 args with
                  | error f => rfl
                  | ok cv =>
                    dsimp only
                    have hr := hrec tname tblk hb cv mm s.call
                    rw [hr]
                    cases hcall : recurse tblk cv ⟨mm, s.call⟩ with
                    | mk cr st' =>
                      cases cr with
                      | error f => rfl
                      | ok res => exact ih _ _ st'.mem st'.stats hrest
    | SetElt base off vexp =>
      simp only [runInstrsF]
      cases h1 : expr_val locs globs prog base with
      | error f => rfl
      | ok vbase =>
        dsimp only
        cases h2 : expr_val locs globs prog off with
        | error f => rfl
        | ok offv =>
          dsimp only
          cases h3 : expr_val locs globs prog vexp with
          | error f => rfl
          | ok vv =>
            cases vbase with
            | CodePtr b => rfl
            | GCTombstone => rfl
            | Data n =>
              dsimp only
              cases offv with
              | CodePtr b => rfl
              | GCTombstone => rfl
              | Data offset =>
                dsimp only
                rw [mem_store_setCap]
                cases hs : mm.mem_store (wadd n (wmul 8 offset)) vv with
                | error f => rfl
                | ok p =>
                  cases p with
                  | mk w m2 => exact ih _ _ m2 _ hrest
    | GetElt dest base off =>
      simp only [runInstrsF]
      cases h1 : expr_val locs globs prog base with
      | error f => rfl
      | ok vbase =>
        dsimp only
        cases h2 : expr_val locs globs prog off with
        | error f => rfl
        | ok offv =>
          cases vbase with
          | CodePtr b => rfl
          | GCTombstone => rfl
          | Data n =>
            dsimp only
            cases offv with
            | CodePtr b => rfl
            | GCTombstone => rfl
            | Data offset =>
              dsimp only
              rw [mem_lookup_setCap]
              cases hl : mm.mem_lookup (wadd n (wmul 8 offset)) with
              | error f => rfl
              | ok mval => exact ih _ _ mm _ hrest
    | Load dest e =>
      simp only [runInstrsF]
      cases he : expr_val locs globs prog e with
      | error f => rfl
      | ok v =>
        cases v with
        | CodePtr b => rfl
        | GCTombstone => rfl
        | Data n =>
          dsimp only
          rw [mem_lookup_setCap]
          cases hl : mm.mem_lookup n with
          | error f => rfl
          | ok mval => exact ih _ _ mm _ hrest
    | Store base vexp =>
      simp only [runInstrsF]
      cases h1 : expr_val locs globs prog base with
      | error f => rfl
      | ok bv =>
        dsimp only
        cases h2 : expr_val locs globs prog vexp with
        | error f => rfl
        | ok vv =>
          cases bv with
          | CodePtr b => rfl
          | GCTombstone => rfl
          | Data n =>
            dsimp only
            rw [mem_store_setCap]
            cases hs : mm.mem_store n vv with
            | error f => rfl
            | ok p =>
              cases p with
              | mk w m2 => exact ih _ _ m2 _ hrest
    | Op v e1 o e2 =>
      simp only [runInstrsF]
      cases h1 : expr_val locs globs prog e1 with
      | error f => rfl
      | ok v1 =>
        dsimp only
        cases h2 : expr_val locs globs prog e2 with
        | error f => rfl
        | ok v2 =>
          cases v1 <;> cases v2 <;> try rfl
          rename_i n1 n2
          dsimp only
          by_cases ho1 : o = "+"
          · simp only [if_pos ho1]; exact ih _ _ mm _ hrest
          · simp only [if_neg ho1]
            by_cases ho2 : o = "<<"
            · simp only [if_pos ho2]; exact ih _ _ mm _ hrest
            · simp only [if_neg ho2]
              by_cases ho3 : o = ">>"
              · simp only [if_pos ho3]; exact ih _ _ mm _ hrest
              · simp only [if_neg ho3]
                by_cases ho4 : o = "-"
                · simp only [if_pos ho4]; exact ih _ _ mm _ hrest
                · simp only [if_neg ho4]
                  by_cases ho5 : o = "/"
                  · simp only [if_pos ho5]
                    by_cases hz : n2 = 0
                    · simp only [if_pos hz]; rfl
                    · simp only [if_neg hz]; exact ih _ _ mm _ hrest
                  · simp only [if_neg ho5]
                    by_cases ho6 : o = "*"
                    · simp only [if_pos ho6]; exact ih _ _ mm _ hrest
                    · simp only [if_neg ho6]
                      by_cases ho7 : o = "&"
                      · simp only [if_pos ho7]; exact ih _ _ mm _ hrest
                      · simp only [if_neg ho7]
                        by_cases ho8 : o = "|"
                        · simp only [if_pos ho8]; exact ih _ _ mm _ hrest
                        · simp only [if_neg ho8]
                          by_cases ho9 : o = "^"
                          · simp only [if_pos ho9]; exact ih _ _ mm _ hrest
                          · simp only [if_neg ho9]
                            by_cases ho10 : o = "<"
                            · simp only [if_pos ho10]; exact ih _ _ mm _ hrest
                            · simp only [if_neg ho10]
                              by_cases ho11 : o = ">"
                              · simp only [if_pos ho11]; exact ih _ _ mm _ hrest
                              · simp only [if_neg ho11]
                                by_cases ho12 : o = "=="
                                · simp only [if_pos ho12]; exact ih _ _ mm _ hrest
                                · simp only [if_neg ho12]; rfl

lemma runBlock_setCap (prog : IRProgram) (globs : GlobalsMap) (c : Option Nat)
    (hprog : progHasNoAlloc prog = true) :
    ∀ (fuel : Nat) (blk : BasicBlock), blockHasNoAlloc blk = true →
      ∀ (prev : Option String) (locs : Locals) (mm : Memory) (s : ExecStats),
        runBlock prog globs fuel blk prev locs ⟨setCap mm c, s⟩ =
          liftCap c (runBlock prog globs fuel blk prev locs ⟨mm, s⟩) := by
  intro fuel
  induction fuel with
  | zero => intro blk hblk prev locs mm s; rfl
  | succ f ih =>
    intro blk hblk prev locs mm s
    simp only [runBlock]
    have hinstr := runInstrsF_setCap prog globs f c
      (fun blk l s => runBlock prog globs f blk none l s)
      (fun bname b hb l mm' s' => ih b (prog_block_noAlloc hprog hb) none l mm' s')
      blk.instrs prev locs mm s hblk
    rw [hinstr]
    cases hrun : runInstrsF prog globs f
        (fun blk l s => runBlock prog globs f blk none l s)
        blk.instrs prev locs ⟨mm, s⟩ with
    | mk rl st' =>
      cases rl with
      | error f' => rfl
      | ok locs' =>
        dsimp only [liftCap]
        cases hnext : blk.next with
        | Fail r => rfl
        | Ret e =>
          dsimp only
          cases hv : expr_val locs' globs prog e with
          | error f' => rfl
          | ok rv => rfl
        | Jump b =>
          dsimp only
          cases hb : lookupBlock prog b with
          | none => rfl
          | some tb =>
            exact ih tb (prog_block_noAlloc hprog hb) _ _ st'.mem st'.stats.uncond
        | If cond tb fb =>
          dsimp only
          cases hv : expr_val locs' globs prog cond with
          | error f' => rfl
          | ok vc =>
            dsimp only
            by_cases hz : vc = VirtualVal.Data 0
            · rw [if_pos hz]
              cases hb : lookupBlock prog fb with
              | none => rfl
              | some tblk =>
                exact ih tblk (prog_block_noAlloc hprog hb) _ _ st'.mem st'.stats.cond
            · rw [if_neg hz]
              cases hb : lookupBlock prog tb with
              | none => rfl
              | some tblk =>
                exact ih tblk (prog_block_noAlloc hprog hb) _ _ st'.mem st'.stats.cond

lemma memory_new_setCap (prog : IRProgram) (c : Option Nat) :
    Memory.new prog c = (setCap (Memory.new prog none).1 c, (Memory.new prog none).2) := by
  unfold Memory.new
  cases hI : initGlobals prog.globals 32 [] [] with
  | mk cur rest =>
    cases rest with
    | mk mres g => rfl

/-- C1: on a memory whose old semispace was populated by a prior program
`Alloc` (which leaves its gap word at address 32 absent from `cells`),
`gc` does not complete: its wipe loop calls `mem_store` on the gap word
and aborts with `UnallocatedAddressWrite 32` instead of tombstoning the
region and advancing `base`.  The conjuncts record that the failing
state really arises from `Memory.new` followed by `alloc` and a header
store, and that the root object itself is traceable. -/
theorem c1_gc_fails_on_alloc_gap_word :
    demoMem0.alloc 4 = .ok (40, demoMemA) ∧
    demoMemA.mem_store 40 (.Data 4) = .ok (.Data 0, demoMem) ∧
    demoMem.slot_cap = some 8 ∧
    demoMem.base = 32 ∧ demoMem.next_alloc = 72 ∧
    lookupA demoMem.map 32 = none ∧
    demoMem.trace 9 64 = .ok (96, demoM3) ∧
    Memory.gc 9 demoMem [("p", VirtualVal.Data 64)] =
      .error (.err (.UnallocatedAddressWrite 32)) :=
  ⟨rfl, rfl, rfl, rfl, rfl, rfl, rfl, rfl⟩

/-- C2: `trace` never installs a forwarding pointer in the old header.
After tracing the object whose payload address is 64, the old
forwarding slot at 48 (= 64 − 16) still holds `Data 0`; a second trace
of the same old address copies the object again, returning the fresh
payload address 128 instead of 96; and on a cyclic object `gc` does not
terminate by short-circuiting — it re-copies the cycle until the slot
cap is exhausted and fails with `OutOfMemory`. -/
theorem c2_trace_installs_no_forwarding_pointer :
    demoMem.trace 9 64 = .ok (96, demoM3) ∧
    lookupA demoM3.map 48 = some (VirtualVal.Data 0) ∧
    demoM3.trace 9 64 = .ok (128, demoM4) ∧
    Memory.gc 9 cycMem [("p", VirtualVal.Data 64)] =
      .error (.err .OutOfMemory) :=
  ⟨rfl, rfl, rfl, rfl⟩

/-- C3: a successful `alloc n` (here `n = 2` on a fresh capped memory)
advances `next_alloc` by exactly `8·(n+1)` and zero-initializes `n`
cells at the returned address, leaving the gap word absent and `base` /
`first_writable` unchanged — but it leaves `slots_alloced` at 0 rather
than increasing it by `n`, contrary to the claim. -/
theorem c3_alloc_does_not_count_slots :
    demoMem0.alloc 2 = .ok (40, c3mem) ∧
    demoMem0.next_alloc = 32 ∧ c3mem.next_alloc = 56 ∧
    c3mem.next_alloc = demoMem0.next_alloc + 8 * (2 + 1) ∧
    lookupA c3mem.map 40 = some (VirtualVal.Data 0) ∧
    lookupA c3mem.map 48 = some (VirtualVal.Data 0) ∧
    lookupA c3mem.map 32 = none ∧
    c3mem.base = demoMem0.base ∧
    c3mem.first_writable = demoMem0.first_writable ∧
    c3mem.slots_alloced = 0 ∧ demoMem0.slots_alloced = 0 ∧
    c3mem.slots_alloced ≠ 2 :=
  ⟨rfl, rfl, rfl, rfl, rfl, rfl, rfl, rfl, rfl, rfl, rfl, by decide⟩

/-- C4: calling a block whose formal-parameter list is empty does not
produce `BadCallArity`; the source indexes `formals[0]` before the
arity check, which is a Rust panic.  For a callee with a non-empty
formal list the arity mismatch does produce `BadCallArity`
(scenario S6). -/
theorem c4_zero_formals_call_panics :
    runProg 3 callZeroFormalsProg none = (.error .panicked, initStats) ∧
    runProg 3 callBadArityProg none = (.error (.err .BadCallArity), initStats) :=
  ⟨rfl, rfl⟩

/-- C7 counterexample: running S1 does not produce the claimed counter
values — the program performs only one fast ALU op (`%x = 2+3`), not
two, so the claimed conjunction fails on the code. -/
theorem c7_s1_claimed_counters_false :
    ¬ ((runProg 2 s1prog none).1 = .ok (.Data 20) ∧
       (runProg 2 s1prog none).2 =
         { fast_alu_ops := 2, slow_alu_ops := 1, rets := 1 }) :=
  fun h => absurd h.2 (by decide)

/-- C7 (amended): running S1 from an empty locals map returns
`Data 20` with final counters `fast_alu_ops = 1`, `slow_alu_ops = 1`,
`rets = 1`, and all other counters 0. -/
theorem c7_s1_arithmetic_return :
    runProg 2 s1prog none =
      (.ok (.Data 20), { fast_alu_ops := 1, slow_alu_ops := 1, rets := 1 }) :=
  rfl

/-- C6: `mem_lookup` applies its checks in the fixed source order: a
null address wins; then the evacuated region `[first_writable, base)`
(even for unaligned addresses); then alignment; then presence; then
tombstones; otherwise the stored value is returned.  In particular
address 1 (below `first_writable`, which is at least 32 in any
constructed memory) reports `UnalignedAccess`, not
`UnallocatedAddressRead`.  The embedding of `mem_lookup` is a pure
function of the memory, which captures that no check mutates it. -/
theorem c6_mem_lookup_check_order (m : Memory) (addr : Nat) :
    (addr = 0 → m.mem_lookup addr = .error (.err .NullPointer)) ∧
    (addr ≠ 0 → m.first_writable ≤ addr → addr < m.base →
      m.mem_lookup addr = .error (.err .ReadFromGCedData)) ∧
    (addr ≠ 0 → ¬(m.first_writable ≤ addr ∧ addr < m.base) → addr % 8 ≠ 0 →
      m.mem_lookup addr = .error (.err (.UnalignedAccess addr))) ∧
    (addr ≠ 0 → ¬(m.first_writable ≤ addr ∧ addr < m.base) → addr % 8 = 0 →
      lookupA m.map addr = none →
      m.mem_lookup addr = .error (.err (.UnallocatedAddressRead addr))) ∧
    (addr ≠ 0 → ¬(m.first_writable ≤ addr ∧ addr < m.base) → addr % 8 = 0 →
      lookupA m.map addr = some .GCTombstone →
      m.mem_lookup addr = .error (.err (.AccessingDeallocatedAddress addr))) ∧
    (∀ v, addr ≠ 0 → ¬(m.first_writable ≤ addr ∧ addr < m.base) → addr % 8 = 0 →
      lookupA m.map addr = some v → v ≠ .GCTombstone →
      m.mem_lookup addr = .ok v) ∧
    (2 ≤ m.first_writable → m.mem_lookup 1 = .error (.err (.UnalignedAccess 1))) := by
  refine ⟨?_, ?_, ?_, ?_, ?_, ?_, ?_⟩
  · intro h0
    unfold Memory.mem_lookup
    rw [if_pos h0]
  · intro h0 h1 h2
    unfold Memory.mem_lookup
    rw [if_neg h0, if_pos ⟨h1, h2⟩]
  · intro h0 h1 h2
    unfold Memory.mem_lookup
    rw [if_neg h0, if_neg h1, if_neg h2]
  · intro h0 h1 h2 h3
    unfold Memory.mem_lookup
    rw [if_neg h0, if_neg h1, if_pos h2, h3]
  · intro h0 h1 h2 h3
    unfold Memory.mem_lookup
    rw [if_neg h0, if_neg h1, if_pos h2, h3]
  · intro v h0 h1 h2 h3 h4
    unfold Memory.mem_lookup
    rw [if_neg h0, if_neg h1, if_pos h2, h3]
    cases v with
    | Data n => rfl
    | CodePtr b => rfl
    | GCTombstone => exact absurd rfl h4
  · intro h
    unfold Memory.mem_lookup
    rw [if_neg (by omega : ¬(1 : Nat) = 0),
        if_neg (fun hc => by omega : ¬(m.first_writable ≤ 1 ∧ 1 < m.base)),
        if_neg (by omega : ¬(1 : Nat) % 8 = 0)]

/-- C6 witness: on the concrete fresh memory, looking address 1 up
yields `UnalignedAccess`. -/
theorem c6_mem_lookup_check_order_witness :
    demoMem0.mem_lookup 1 = .error (.err (.UnalignedAccess 1)) :=
  (c6_mem_lookup_check_order demoMem0 1).2.2.2.2.2.2 (by decide)

/-- C10: for a block ending in `If cond tblock fblock` (with no
instructions before the terminator), when the condition evaluates to
`v`, execution transitions — without reporting any error — to `fblock`
exactly when `v = Data 0`, and to `tblock` for every other value: any
non-zero `Data`, any `CodePtr`, and also `GCTombstone`. -/
theorem c10_if_tombstone_takes_true_branch (prog : IRProgram) (globs : GlobalsMap)
    (fuel : Nat) (nm : String) (fs : List String) (c : IRExpr) (tb fb : String)
    (prev : Option String) (locs : Locals) (st : ExecState)
    (v : VirtualVal) (btrue bfalse : BasicBlock)
    (hv : expr_val locs globs prog c = .ok v)
    (htb : lookupBlock prog tb = some btrue)
    (hfb : lookupBlock prog fb = some bfalse) :
    runBlock prog globs (fuel + 1) ⟨nm, fs, [], .If c tb fb⟩ prev locs st =
      runBlock prog globs fuel (if v = .Data 0 then bfalse else btrue)
        (some nm) locs ⟨st.mem, st.stats.cond⟩ := by
  by_cases hz : v = VirtualVal.Data 0
  · simp [runBlock, runInstrsF, hv, hz, hfb]
  · simp [runBlock, runInstrsF, hv, hz, htb]

/-- C10 witness: with a local holding `GCTombstone` as the condition,
the `If` terminator transitions to the true-branch block. -/
theorem c10_if_tombstone_takes_true_branch_witness :
    runBlock ifProg [] 2 ⟨"m", [], [], .If (.Var "x") "t" "f"⟩ none
        [("x", .GCTombstone)] ⟨demoMem0, initStats⟩ =
      runBlock ifProg [] 1 ifTBlk (some "m") [("x", .GCTombstone)]
        ⟨demoMem0, initStats.cond⟩ :=
  c10_if_tombstone_takes_true_branch ifProg [] 1 "m" [] (.Var "x") "t" "f" none
    [("x", .GCTombstone)] ⟨demoMem0, initStats⟩ .GCTombstone ifTBlk ifFBlk
    rfl rfl rfl

/-- C5: for `u64` operands, `+`, `-` and `*` compute modulo `2^64`
(so `n1 - n2` with `n2 > n1` wraps to `2^64 + n1 - n2`), `<<` and `>>`
are logical shifts (multiplication by and truncating division by
`2^n2`), and `<`, `>`, `==` yield `Data 1` when the relation holds and
`Data 0` otherwise; `+`, `-`, shifts and comparisons count one fast ALU
op, `*` one slow ALU op. -/
theorem c5_op_modular_arithmetic (n1 n2 : Nat) (h1 : n1 < 2 ^ 64) (h2 : n2 < 2 ^ 64) :
    (runOp "+" n1 n2 =
      (.ok (set_var (opLocals n1 n2) "c" (.Data ((n1 + n2) % 2 ^ 64))),
       ⟨demoMem0, initStats.fast_op⟩)) ∧
    (runOp "-" n1 n2 =
      (.ok (set_var (opLocals n1 n2) "c" (.Data ((2 ^ 64 + n1 - n2) % 2 ^ 64))),
       ⟨demoMem0, initStats.fast_op⟩)) ∧
    (runOp "*" n1 n2 =
      (.ok (set_var (opLocals n1 n2) "c" (.Data ((n1 * n2) % 2 ^ 64))),
       ⟨demoMem0, initStats.slow_op⟩)) ∧
    (n2 < 64 →
      runOp "<<" n1 n2 =
        (.ok (set_var (opLocals n1 n2) "c" (.Data ((n1 * 2 ^ n2) % 2 ^ 64))),
         ⟨demoMem0, initStats.fast_op⟩)) ∧
    (n2 < 64 →
      runOp ">>" n1 n2 =
        (.ok (set_var (opLocals n1 n2) "c" (.Data (n1 / 2 ^ n2))),
         ⟨demoMem0, initStats.fast_op⟩)) ∧
    (runOp "<" n1 n2 =
      (.ok (set_var (opLocals n1 n2) "c" (.Data (if n1 < n2 then 1 else 0))),
       ⟨demoMem0, initStats.fast_op⟩)) ∧
    (runOp ">" n1 n2 =
      (.ok (set_var (opLocals n1 n2) "c" (.Data (if n2 < n1 then 1 else 0))),
       ⟨demoMem0, initStats.fast_op⟩)) ∧
    (runOp "==" n1 n2 =
      (.ok (set_var (opLocals n1 n2) "c" (.Data (if n1 = n2 then 1 else 0))),
       ⟨demoMem0, initStats.fast_op⟩)) := by
  refine ⟨?_, ?_, ?_, ?_, ?_, ?_, ?_, ?_⟩
  · simp [runOp, runInstrsF, expr_val, read_var, lookupA, opLocals, opState, wadd]
  · simp [runOp, runInstrsF, expr_val, read_var, lookupA, opLocals, opState, wsub]
    congr 2
    omega
  · simp [runOp, runInstrsF, expr_val, read_var, lookupA, opLocals, opState, wmul]
  · intro hs
    simp [runOp, runInstrsF, expr_val, read_var, lookupA, opLocals, opState, wshl,
          Nat.mod_eq_of_lt hs, Nat.shiftLeft_eq]
  · intro hs
    simp [runOp, runInstrsF, expr_val, read_var, lookupA, opLocals, opState, wshr,
          Nat.mod_eq_of_lt hs, Nat.shiftRight_eq_div_pow]
  · simp [runOp, runInstrsF, expr_val, read_var, lookupA, opLocals, opState]
  · simp [runOp, runInstrsF, expr_val, read_var, lookupA, opLocals, opState]
  · simp [runOp, runInstrsF, expr_val, read_var, lookupA, opLocals, opState]

/-- C5 witness: `3 - 5` wraps to `2^64 - 2`. -/
theorem c5_op_modular_arithmetic_witness :
    runOp "-" 3 5 =
      (.ok (set_var (opLocals 3 5) "c" (.Data ((2 ^ 64 + 3 - 5) % 2 ^ 64))),
       ⟨demoMem0, initStats.fast_op⟩) :=
  (c5_op_modular_arithmetic 3 5 (by decide) (by decide)).2.1

/-- C9: the alignment invariant — every address present as a key of
`cells` is a multiple of 8 (together with the auxiliary fact that the
bump pointer stays 8-aligned) — holds after `Memory::new` and is
preserved by every successful `alloc`, `reserve`, `mem_store`, and `gc`
operation. -/
theorem c9_cells_keys_are_multiples_of_8 :
    (∀ (prog : IRProgram) (cap : Option Nat), ((Memory.new prog cap).1).aligned) ∧
    (∀ (m : Memory) (n r : Nat) (m' : Memory),
      m.aligned → m.alloc n = .ok (r, m') → m'.aligned) ∧
    (∀ (m : Memory) (n r : Nat) (m' : Memory),
      m.aligned → m.reserve n = .ok (r, m') → m'.aligned) ∧
    (∀ (m : Memory) (a : Nat) (v old : VirtualVal) (m' : Memory),
      m.aligned → m.mem_store a v = .ok (old, m') → m'.aligned) ∧
    (∀ (fuel : Nat) (m : Memory) (locs : Locals) (m' : Memory) (locs' : Locals),
      m.aligned → Memory.gc fuel m locs = .ok (m', locs') → m'.aligned) := by
  refine ⟨?_, ?_, ?_, ?_, ?_⟩
  · intro prog cap
    unfold Memory.new
    have h := initGlobals_aligned prog.globals 32 [] []
      (fun p hp => absurd hp (List.not_mem_nil p)) (by norm_num)
    exact ⟨h.1, h.2⟩
  · intro m n r m' hm h
    exact aligned_alloc hm h
  · intro m n r m' hm h
    exact aligned_reserve hm h
  · intro m a v old m' hm h
    exact aligned_mem_store hm h
  · intro fuel m locs m' locs' hm h
    exact aligned_gc hm h

/-- C9 witness: the fresh capped memory is aligned, and so is the
memory produced by the concrete `alloc` of 4 slots. -/
theorem c9_cells_keys_are_multiples_of_8_witness : demoMemA.aligned :=
  c9_cells_keys_are_multiples_of_8.2.1 demoMem0 4 40 demoMemA
    (c9_cells_keys_are_multiples_of_8.1 demoProg (some 8)) rfl

/-- C8: running any program that contains no `Alloc` instruction under
`cap = None` and under `cap = Some(u64::MAX)` produces the identical
result value and identical final counter values: the slot cap is only
consulted by `alloc` / `reserve` / `gc`, none of which such a run can
reach. -/
theorem c8_cap_irrelevant_without_alloc (prog : IRProgram) (fuel : Nat)
    (h : progHasNoAlloc prog = true) :
    runProg fuel prog none = runProg fuel prog (some (2 ^ 64 - 1)) := by
  unfold runProg
  cases hmain : lookupBlock prog "main" with
  | none => rfl
  | some mainBlk =>
    cases hN : Memory.new prog none with
    | mk m0 g0 =>
      rw [memory_new_setCap prog (some (2 ^ 64 - 1)), hN]
      dsimp only
      rw [runBlock_setCap prog g0 (some (2 ^ 64 - 1)) h fuel mainBlk
          (prog_block_noAlloc h hmain) none [] m0 initStats]
      cases hR : runBlock prog g0 fuel mainBlk none [] ⟨m0, initStats⟩ with
      | mk r st => rfl

/-- C8 witness: the concrete allocation-free S1 program runs identically
under no cap and under cap `u64::MAX`. -/
theorem c8_cap_irrelevant_without_alloc_witness :
    runProg 2 s1prog none = runProg 2 s1prog (some (2 ^ 64 - 1)) :=
  c8_cap_irrelevant_without_alloc s1prog 2 (by decide)

end IR441
